import Mathlib

/-!
Verification of the inheritance-risk estimation engine of the Genovate
family-chart module (`pages/6_Family_Chart.py`).

The pedigree store is a dictionary from person id to `Person`; the five
risk engines (AR, AD, XLR, XLD, MITO) read the proband's parents and the
recorded siblings and return a probability.  Python floats are modelled
as rationals (`ℚ`), Python `Optional[bool]` / `Optional[str]` as
`Option Bool` / `Option String`; Python truthiness of an `Optional[bool]`
value (`None` and `False` falsy) coincides with testing `= some true`.
-/

namespace Genovate

/-- `Person` dataclass of the source: one family member.  `parents` is the
list `[father_pid, mother_pid]` whose entries may be `None`. -/
structure Person where
  pid : String
  name : String
  sex : String
  relation : String
  affected : Option Bool := none
  carrier : Option Bool := none
  age : Option Nat := none
  notes : String := ""
  parents : List (Option String) := []
deriving Repr, DecidableEq

/-- The in-memory family store `Dict[str, Person]`, modelled as an
insertion-ordered association list. -/
abbrev Store := List (String × Person)

/-- `persons.get(pid)` on the dictionary. -/
def storeGet (persons : Store) (pid : String) : Option Person :=
  (persons.find? (fun kv => kv.1 == pid)).map (·.2)

/-- `persons[k] = v` on the dictionary: replace in place when the key is
present, append otherwise. -/
def storeSet (persons : Store) (k : String) (v : Person) : Store :=
  if persons.any (fun kv => kv.1 == k) then
    persons.map (fun kv => if kv.1 == k then (k, v) else kv)
  else
    persons ++ [(k, v)]

/-- `persons.values()` in insertion order. -/
def storeValues (persons : Store) : List Person :=
  persons.map (·.2)

/-- `InheritanceParams` dataclass: the caller-supplied parameter bundle. -/
structure InheritanceParams where
  pattern : String
  prevalence : ℚ
  carrier_freq : ℚ
  penetrance : ℚ
  de_novo_rate : ℚ
deriving Repr, DecidableEq

/-- Python truthiness of an optional id string: `None` and `""` are falsy. -/
def truthyId : Option String → Bool
  | none => false
  | some s => s ≠ ""

/-- `get_parent(persons, pid, role)`: father slot is `parents[0]`, mother
slot is `parents[1]`; an empty parent list, an empty slot, or a dangling
referenced id all yield `none`. -/
def get_parent (persons : Store) (pid : String) (role : String) : Option Person :=
  match storeGet persons pid with
  | none => none
  | some p =>
    if p.parents.isEmpty then none
    else
      let father_id : Option String := p.parents.getD 0 none
      let mother_id : Option String := p.parents.getD 1 none
      if role = "father" ∧ truthyId father_id then storeGet persons (father_id.getD "")
      else if role = "mother" ∧ truthyId mother_id then storeGet persons (mother_id.getD "")
      else none

/-- Truthiness of `parent and parent.affected` (equivalently of
`parent.affected is True` for an `Optional[bool]` field). -/
def affectedTrue : Option Person → Bool
  | none => false
  | some p => p.affected == some true

/-- Truthiness of `mother and (mother.carrier or mother.affected)`. -/
def carrierOrAffected : Option Person → Bool
  | none => false
  | some p => p.carrier == some true || p.affected == some true

/-- `prob_proband_AR`: carrier probabilities start at `carrier_freq`, are
promoted to 1 for an affected parent and to at least 2/3 when some
recorded sibling is affected; risk = cf · cm · 1/4 · penetrance, clamped. -/
def prob_proband_AR (persons : Store) (proband : Person) (prm : InheritanceParams) : ℚ :=
  let q := prm.carrier_freq
  let father := get_parent persons proband.pid "father"
  let mother := get_parent persons proband.pid "mother"
  let cf1 : ℚ := if affectedTrue father then 1 else q
  let cm1 : ℚ := if affectedTrue mother then 1 else q
  let sibs := (storeValues persons).filter (fun p => p.relation = "sibling")
  let anySibAffected := sibs.any (fun s => s.affected == some true)
  let cf : ℚ := if anySibAffected then max cf1 (2 / 3) else cf1
  let cm : ℚ := if anySibAffected then max cm1 (2 / 3) else cm1
  let prob := cf * cm * (1 / 4) * prm.penetrance
  min (max prob 0) 1

/-- `prob_proband_AD`: parent risk is `max` over the two parents of
`0.5 · penetrance` when affected; when that accumulator is still 0 the
de-novo term `de_novo_rate · penetrance` applies; result clamped. -/
def prob_proband_AD (persons : Store) (proband : Person) (prm : InheritanceParams) : ℚ :=
  let father := get_parent persons proband.pid "father"
  let mother := get_parent persons proband.pid "mother"
  let parent_risk0 : ℚ := 0
  let parent_risk1 : ℚ :=
    if affectedTrue father then max parent_risk0 (1 / 2 * prm.penetrance) else parent_risk0
  let parent_risk2 : ℚ :=
    if affectedTrue mother then max parent_risk1 (1 / 2 * prm.penetrance) else parent_risk1
  let parent_risk : ℚ :=
    if parent_risk2 = 0 then prm.de_novo_rate * prm.penetrance else parent_risk2
  min (max parent_risk 0) 1

/-- `prob_proband_XLR`: male proband → 1/2 · cm · penetrance with the
mother's carrier probability promoted to 1 if she is a known carrier or
affected; female proband → cm · cf · 1/4 · penetrance with cf 1 or 0 from
the father's affected status.  The source does not clamp this engine. -/
def prob_proband_XLR (persons : Store) (proband : Person) (prm : InheritanceParams) : ℚ :=
  let q := prm.carrier_freq
  if proband.sex = "M" then
    let mother := get_parent persons proband.pid "mother"
    let cm : ℚ := if carrierOrAffected mother then 1 else q
    1 / 2 * cm * prm.penetrance
  else
    let father := get_parent persons proband.pid "father"
    let mother := get_parent persons proband.pid "mother"
    let cf : ℚ := if affectedTrue father then 1 else 0
    let cm : ℚ := if carrierOrAffected mother then 1 else q
    cm * cf * (1 / 4) * prm.penetrance

/-- `prob_proband_XLD`: female proband → max of 1/2 · penetrance (affected
mother) and 1 · penetrance (affected father), de-novo fallback when the
accumulator is 0, clamped; male proband → 1/2 · penetrance if the mother
is affected, else the de-novo term (unclamped in the source). -/
def prob_proband_XLD (persons : Store) (proband : Person) (prm : InheritanceParams) : ℚ :=
  let father := get_parent persons proband.pid "father"
  let mother := get_parent persons proband.pid "mother"
  if proband.sex = "F" then
    let risk0 : ℚ := 0
    let risk1 : ℚ := if affectedTrue mother then max risk0 (1 / 2 * prm.penetrance) else risk0
    let risk2 : ℚ := if affectedTrue father then max risk1 (1 * prm.penetrance) else risk1
    let risk : ℚ := if risk2 = 0 then prm.de_novo_rate * prm.penetrance else risk2
    min (max risk 0) 1
  else
    if affectedTrue mother then 1 / 2 * prm.penetrance
    else prm.de_novo_rate * prm.penetrance

/-- `prob_proband_MITO`: 1 · penetrance when the mother is affected, else
`prevalence · penetrance` (unclamped in the source). -/
def prob_proband_MITO (persons : Store) (proband : Person) (prm : InheritanceParams) : ℚ :=
  let mother := get_parent persons proband.pid "mother"
  if affectedTrue mother then 1 * prm.penetrance
  else prm.prevalence * prm.penetrance

/-- The `PATTERN_ENGINES` dict: display key → engine, in source order. -/
def PATTERN_ENGINES : List (String × (Store → Person → InheritanceParams → ℚ)) :=
  [("Autosomal Recessive (AR)", prob_proband_AR),
   ("Autosomal Dominant (AD)", prob_proband_AD),
   ("X-linked Recessive (XLR)", prob_proband_XLR),
   ("X-linked Dominant (XLD)", prob_proband_XLD),
   ("Mitochondrial (MITO)", prob_proband_MITO)]

/-- The characters of a string before the first occurrence of the
separator `sep`: `s.split(sep)[0]` for a non-empty separator. -/
def splitHead (sep : List Char) : List Char → List Char
  | [] => []
  | c :: rest => if sep.isPrefixOf (c :: rest) then [] else c :: splitHead sep rest

/-- `s.startswith(pre)` of the source, as a prefix test on characters. -/
def strStartsWith (s pre : String) : Bool :=
  pre.data.isPrefixOf s.data

/-- `k.split(" (")[0]`: the part of an engine key before its parenthesis. -/
def engineKeyRoot (k : String) : String :=
  ⟨splitHead " (".data k.data⟩

/-- The engine-selection loop: the first engine whose key root is a
string-initial segment of the selected pattern (`pattern.startswith`). -/
def findEngine (pattern : String) : Option (Store → Person → InheritanceParams → ℚ) :=
  (PATTERN_ENGINES.find? (fun kf => strStartsWith pattern (engineKeyRoot kf.1))).map (·.2)

/-- `compute_risk`: dispatch on the selected pattern; `none` when no
engine matches. -/
def compute_risk (persons : Store) (proband : Person) (prm : InheritanceParams) : Option ℚ :=
  match findEngine prm.pattern with
  | some engine => some (engine persons proband prm)
  | none => none

/-- `risk_bucket`: `None` → "Unknown", `< 0.01` → "Low", `< 0.1` →
"Moderate", otherwise "High". -/
def risk_bucket : Option ℚ → String
  | none => "Unknown"
  | some prob =>
    if prob < 1 / 100 then "Low"
    else if prob < 1 / 10 then "Moderate"
    else "High"

/-- `f"P{len(family)}"`: the fresh id assigned by the add-relative form. -/
def newPid (fam : Store) : String :=
  "P" ++ toString fam.length

/-- The `add_relative_form` submit handler.  An empty name is ignored;
a new `Person` gets the fresh id; for relation "mother" the proband's
parent pair is rewritten to `[old father slot, new id]` (symmetrically
for "father"), then the new person is stored.  The Python handler indexes
`family[proband_id]` (KeyError when absent) and, in the "father" branch,
`parents[1]` of a non-empty parent list (IndexError when shorter);
those failures are returned as `none`. -/
def add_relative (fam : Store) (proband_id : String) (name relation sex : String)
    (affected carrier : Option Bool) (age : Option Nat) (notes : String) : Option Store :=
  if name = "" then some fam
  else
    let pid := newPid fam
    let person : Person :=
      { pid := pid, name := name, sex := sex, relation := relation,
        affected := affected, carrier := carrier, age := age, notes := notes }
    if relation = "mother" then
      match storeGet fam proband_id with
      | none => none
      | some pr =>
        let fatherSlot : Option String :=
          if pr.parents.isEmpty then none else pr.parents.getD 0 none
        let fam1 := storeSet fam proband_id { pr with parents := [fatherSlot, some pid] }
        some (storeSet fam1 pid person)
    else if relation = "father" then
      match storeGet fam proband_id with
      | none => none
      | some pr =>
        let motherIndexed : Option (Option String) :=
          if pr.parents.isEmpty then some none else pr.parents.get? 1
        match motherIndexed with
        | none => none
        | some motherSlot =>
          let fam1 := storeSet fam proband_id { pr with parents := [some pid, motherSlot] }
          some (storeSet fam1 pid person)
    else
      some (storeSet fam pid person)

/-- Erase the `carrier` field of a person (for the AR non-interference
statement). -/
def eraseCarrier (p : Person) : Person :=
  { p with carrier := none }

/-- Erase every `carrier` field in a store. -/
def eraseStoreCarrier (fam : Store) : Store :=
  fam.map (fun kv => (kv.1, eraseCarrier kv.2))

/-- All four numeric parameters of the bundle lie in [0,1]. -/
def validParams (prm : InheritanceParams) : Prop :=
  0 ≤ prm.prevalence ∧ prm.prevalence ≤ 1 ∧
  0 ≤ prm.carrier_freq ∧ prm.carrier_freq ≤ 1 ∧
  0 ≤ prm.penetrance ∧ prm.penetrance ≤ 1 ∧
  0 ≤ prm.de_novo_rate ∧ prm.de_novo_rate ≤ 1

instance (prm : InheritanceParams) : Decidable (validParams prm) := by
  unfold validParams; infer_instance

/-! ### Helper lemmas about the clamp `min (max x 0) 1` -/

lemma clamp01_nonneg (x : ℚ) : 0 ≤ min (max x 0) 1 :=
  le_min (le_max_right x 0) zero_le_one

lemma clamp01_le_one (x : ℚ) : min (max x 0) 1 ≤ 1 :=
  min_le_right _ _

lemma clamp01_eq_self {x : ℚ} (h0 : 0 ≤ x) (h1 : x ≤ 1) : min (max x 0) 1 = x := by
  rw [max_eq_left h0, min_eq_left h1]

lemma clamp01_mono {x y : ℚ} (h : x ≤ y) : min (max x 0) 1 ≤ min (max y 0) 1 :=
  min_le_min (max_le_max h le_rfl) le_rfl

/-! ### Dictionary lemmas for the pedigree store -/

lemma storeGet_cons (a : String × Person) (fam : Store) (k : String) :
    storeGet (a :: fam) k = if a.1 == k then some a.2 else storeGet fam k := by
  by_cases h : (a.1 == k) = true
  · unfold storeGet
    rw [show List.find? (fun kv => kv.1 == k) (a :: fam) = some a from
      List.find?_cons_of_pos _ h, if_pos h]
    rfl
  · unfold storeGet
    rw [show List.find? (fun kv => kv.1 == k) (a :: fam) =
        List.find? (fun kv => kv.1 == k) fam from
      List.find?_cons_of_neg _ h, if_neg h]

lemma storeGet_setMap_self (fam : Store) (k : String) (v : Person)
    (hany : fam.any (fun kv => kv.1 == k) = true) :
    storeGet (fam.map (fun kv => if kv.1 == k then (k, v) else kv)) k = some v := by
  induction fam with
  | nil => simp at hany
  | cons a rest ih =>
    rw [List.map_cons]
    by_cases hak : (a.1 == k) = true
    · rw [if_pos hak, storeGet_cons]
      simp
    · rw [if_neg hak, storeGet_cons, if_neg hak]
      apply ih
      rcases List.any_eq_true.mp hany with ⟨x, hx, hpx⟩
      rcases List.mem_cons.mp hx with hxa | hxr
      · subst hxa; exact absurd hpx hak
      · exact List.any_eq_true.mpr ⟨x, hxr, hpx⟩

lemma storeGet_setMap_ne (fam : Store) (k : String) (v : Person) (j : String)
    (hjk : j ≠ k) :
    storeGet (fam.map (fun kv => if kv.1 == k then (k, v) else kv)) j =
      storeGet fam j := by
  induction fam with
  | nil => rfl
  | cons a rest ih =>
    rw [List.map_cons]
    by_cases hak : (a.1 == k) = true
    · rw [if_pos hak, storeGet_cons, storeGet_cons]
      have hk : a.1 = k := by simpa using hak
      have h1 : (k == j) = false := by simp [Ne.symm hjk]
      have h2 : (a.1 == j) = false := by simp [hk, Ne.symm hjk]
      rw [h1, h2]
      simpa using ih
    · rw [if_neg hak, storeGet_cons, storeGet_cons]
      by_cases haj : (a.1 == j) = true
      · rw [haj]
        simp
      · rw [Bool.eq_false_iff.mpr haj]
        simpa using ih

lemma storeGet_append_self (fam : Store) (k : String) (v : Person)
    (hnone : storeGet fam k = none) :
    storeGet (fam ++ [(k, v)]) k = some v := by
  induction fam with
  | nil => simp [storeGet_cons]
  | cons a rest ih =>
    rw [List.cons_append, storeGet_cons]
    rw [storeGet_cons] at hnone
    by_cases hak : (a.1 == k) = true
    · rw [if_pos hak] at hnone; cases hnone
    · rw [if_neg hak] at hnone
      rw [if_neg hak]
      exact ih hnone

lemma storeGet_append_ne (fam : Store) (k : String) (v : Person) (j : String)
    (hjk : j ≠ k) :
    storeGet (fam ++ [(k, v)]) j = storeGet fam j := by
  induction fam with
  | nil =>
    have h1 : (k == j) = false := by simp [Ne.symm hjk]
    simp [storeGet_cons, h1, storeGet]
  | cons a rest ih =>
    rw [List.cons_append, storeGet_cons, storeGet_cons]
    by_cases haj : (a.1 == j) = true
    · rw [haj]
      simp
    · rw [Bool.eq_false_iff.mpr haj]
      simpa using ih

/-- Lookup after dictionary assignment: the assigned key reads back the
new value, every other key is unchanged. -/
lemma storeGet_storeSet (fam : Store) (k : String) (v : Person) (j : String) :
    storeGet (storeSet fam k v) j = if j = k then some v else storeGet fam j := by
  unfold storeSet
  by_cases hany : fam.any (fun kv => kv.1 == k) = true
  · rw [if_pos hany]
    by_cases hjk : j = k
    · subst hjk; rw [if_pos rfl]
      exact storeGet_setMap_self fam j v hany
    · rw [if_neg hjk]
      exact storeGet_setMap_ne fam k v j hjk
  · rw [if_neg hany]
    have hnone : storeGet fam k = none := by
      cases hf : List.find? (fun kv => kv.1 == k) fam with
      | none => unfold storeGet; rw [hf]; rfl
      | some a =>
        exact absurd
          (List.any_eq_true.mpr ⟨a, List.mem_of_find?_eq_some hf, List.find?_some hf⟩) hany
    by_cases hjk : j = k
    · subst hjk; rw [if_pos rfl]
      exact storeGet_append_self fam j v hnone
    · rw [if_neg hjk]
      exact storeGet_append_ne fam k v j hjk

lemma newPid_ne_empty (fam : Store) : newPid fam ≠ "" := by
  intro h
  have h2 : (newPid fam).data = ("" : String).data := congrArg String.data h
  unfold newPid at h2
  rw [String.data_append] at h2
  simp at h2

/-- `get_parent` on a person whose mother slot holds a non-empty id. -/
lemma get_parent_mother_slot (persons : Store) (pid : String) (p : Person)
    (fSlot : Option String) (s : String)
    (hp : storeGet persons pid = some p) (hparents : p.parents = [fSlot, some s])
    (hs : s ≠ "") :
    get_parent persons pid "mother" = storeGet persons s := by
  unfold get_parent
  rw [hp]
  simp only [hparents]
  rw [if_neg (by simp)]
  rw [if_neg (by rintro ⟨h, -⟩; exact absurd h (by decide))]
  simp [truthyId, hs]

/-- `get_parent` on a person whose father slot holds a non-empty id. -/
lemma get_parent_father_slot (persons : Store) (pid : String) (p : Person)
    (mSlot : Option String) (s : String)
    (hp : storeGet persons pid = some p) (hparents : p.parents = [some s, mSlot])
    (hs : s ≠ "") :
    get_parent persons pid "father" = storeGet persons s := by
  unfold get_parent
  rw [hp]
  simp only [hparents]
  rw [if_neg (by simp)]
  simp [truthyId, hs]

/-! ### Characterizations of the engines (definitional unfoldings) -/

/-- Whether some recorded sibling is affected (the AR sibling scan). -/
def anySibAffected (persons : Store) : Bool :=
  ((storeValues persons).filter (fun p => p.relation = "sibling")).any
    (fun s => s.affected == some true)

/-- The carrier probability the AR engine assigns to one parent, from the
parent's affected flag, the sibling flag and the baseline `q`. -/
def parentCarrierAR (aff sib : Bool) (q : ℚ) : ℚ :=
  if sib then max (if aff then 1 else q) (2 / 3) else (if aff then 1 else q)

lemma AR_eq (persons : Store) (proband : Person) (prm : InheritanceParams) :
    prob_proband_AR persons proband prm =
      min (max (parentCarrierAR (affectedTrue (get_parent persons proband.pid "father"))
                  (anySibAffected persons) prm.carrier_freq *
                parentCarrierAR (affectedTrue (get_parent persons proband.pid "mother"))
                  (anySibAffected persons) prm.carrier_freq *
                (1 / 4) * prm.penetrance) 0) 1 := rfl

/-- The AD accumulator before clamping. -/
def adBase (fAff mAff : Bool) (pen dn : ℚ) : ℚ :=
  let r1 : ℚ := if fAff then max 0 (1 / 2 * pen) else 0
  let r2 : ℚ := if mAff then max r1 (1 / 2 * pen) else r1
  if r2 = 0 then dn * pen else r2

lemma AD_eq (persons : Store) (proband : Person) (prm : InheritanceParams) :
    prob_proband_AD persons proband prm =
      min (max (adBase (affectedTrue (get_parent persons proband.pid "father"))
                  (affectedTrue (get_parent persons proband.pid "mother"))
                  prm.penetrance prm.de_novo_rate) 0) 1 := rfl

/-- The XLD female-branch accumulator before clamping. -/
def xldFemaleBase (mAff fAff : Bool) (pen dn : ℚ) : ℚ :=
  let r1 : ℚ := if mAff then max 0 (1 / 2 * pen) else 0
  let r2 : ℚ := if fAff then max r1 (1 * pen) else r1
  if r2 = 0 then dn * pen else r2

lemma XLD_eq (persons : Store) (proband : Person) (prm : InheritanceParams) :
    prob_proband_XLD persons proband prm =
      if proband.sex = "F" then
        min (max (xldFemaleBase (affectedTrue (get_parent persons proband.pid "mother"))
                    (affectedTrue (get_parent persons proband.pid "father"))
                    prm.penetrance prm.de_novo_rate) 0) 1
      else
        if affectedTrue (get_parent persons proband.pid "mother") then 1 / 2 * prm.penetrance
        else prm.de_novo_rate * prm.penetrance := rfl

lemma XLR_eq (persons : Store) (proband : Person) (prm : InheritanceParams) :
    prob_proband_XLR persons proband prm =
      if proband.sex = "M" then
        1 / 2 * (if carrierOrAffected (get_parent persons proband.pid "mother") then 1
                 else prm.carrier_freq) * prm.penetrance
      else
        (if carrierOrAffected (get_parent persons proband.pid "mother") then 1
         else prm.carrier_freq) *
        (if affectedTrue (get_parent persons proband.pid "father") then 1 else 0) *
        (1 / 4) * prm.penetrance := rfl

lemma MITO_eq (persons : Store) (proband : Person) (prm : InheritanceParams) :
    prob_proband_MITO persons proband prm =
      if affectedTrue (get_parent persons proband.pid "mother") then 1 * prm.penetrance
      else prm.prevalence * prm.penetrance := rfl

lemma parentCarrierAR_nonneg {q : ℚ} (hq : 0 ≤ q) (aff sib : Bool) :
    0 ≤ parentCarrierAR aff sib q := by
  unfold parentCarrierAR
  split_ifs <;> first
    | exact zero_le_one
    | exact hq
    | exact le_max_of_le_right (by norm_num)

lemma parentCarrierAR_le_one {q : ℚ} (hq : q ≤ 1) (aff sib : Bool) :
    parentCarrierAR aff sib q ≤ 1 := by
  unfold parentCarrierAR
  split_ifs <;> first
    | exact le_rfl
    | exact hq
    | exact max_le (by assumption) (by norm_num)
    | exact max_le le_rfl (by norm_num)

lemma parentCarrierAR_true (sib : Bool) (q : ℚ) : parentCarrierAR true sib q = 1 := by
  unfold parentCarrierAR
  cases sib <;> simp [max_eq_left (show (2 : ℚ) / 3 ≤ 1 by norm_num)]

lemma parentCarrierAR_sib_ge (aff : Bool) (q : ℚ) :
    2 / 3 ≤ parentCarrierAR aff true q := by
  unfold parentCarrierAR
  simp only [if_true]
  exact le_max_right _ _

/-- AR with both recorded parents affected: exactly `1/4 · penetrance`
(shared by the obligate-carrier and the never-downgraded statements). -/
lemma AR_both_affected (persons : Store) (proband : Person) (prm : InheritanceParams)
    (f m : Person)
    (hf : get_parent persons proband.pid "father" = some f)
    (hm : get_parent persons proband.pid "mother" = some m)
    (hfa : f.affected = some true) (hma : m.affected = some true)
    (hp0 : 0 ≤ prm.penetrance) (hp1 : prm.penetrance ≤ 1) :
    prob_proband_AR persons proband prm = 1 / 4 * prm.penetrance := by
  have haf : affectedTrue (get_parent persons proband.pid "father") = true := by
    rw [hf]; simp [affectedTrue, hfa]
  have ham : affectedTrue (get_parent persons proband.pid "mother") = true := by
    rw [hm]; simp [affectedTrue, hma]
  rw [AR_eq, haf, ham, parentCarrierAR_true]
  rw [show (1 : ℚ) * 1 * (1 / 4) * prm.penetrance = 1 / 4 * prm.penetrance from by ring]
  exact clamp01_eq_self (by linarith) (by linarith)

/-! ### Claim theorems -/

/-- C2: `risk_bucket` maps a probability `p` to "Low" iff `p < 0.01`, to
"Moderate" iff `0.01 ≤ p < 0.10`, to "High" iff `p ≥ 0.10`, and maps
`None` to "Unknown"; in particular `p = 0.01` yields "Moderate" and
`p = 0.10` yields "High". -/
theorem spec_C2_risk_bucket (p : ℚ) :
    (risk_bucket (some p) = "Low" ↔ p < 1 / 100) ∧
    (risk_bucket (some p) = "Moderate" ↔ 1 / 100 ≤ p ∧ p < 1 / 10) ∧
    (risk_bucket (some p) = "High" ↔ 1 / 10 ≤ p) ∧
    risk_bucket none = "Unknown" ∧
    risk_bucket (some (1 / 100)) = "Moderate" ∧
    risk_bucket (some (1 / 10)) = "High" := by
  refine ⟨?_, ?_, ?_, rfl, ?_, ?_⟩
  · simp only [risk_bucket]
    split_ifs with h1 h2
    · exact iff_of_true rfl h1
    · exact iff_of_false (by decide) h1
    · exact iff_of_false (by decide) h1
  · simp only [risk_bucket]
    split_ifs with h1 h2
    · exact iff_of_false (by decide) (fun h => not_lt.mpr h.1 h1)
    · exact iff_of_true rfl ⟨not_lt.mp h1, h2⟩
    · exact iff_of_false (by decide) (fun h => h2 h.2)
  · simp only [risk_bucket]
    split_ifs with h1 h2
    · exact iff_of_false (by decide) (not_le.mpr (h1.trans (by norm_num)))
    · exact iff_of_false (by decide) (not_le.mpr h2)
    · exact iff_of_true rfl (not_lt.mp h2)
  · simp only [risk_bucket]
    rw [if_neg (by norm_num), if_pos (by norm_num)]
  · simp only [risk_bucket]
    rw [if_neg (by norm_num), if_neg (by norm_num)]

/-- C3: for the AR engine, if both recorded parents are Affected then the
risk equals `1/4 · penetrance` exactly, for every `carrier_freq` in [0,1]. -/
theorem spec_C3_AR_obligate (persons : Store) (proband : Person) (prm : InheritanceParams)
    (f m : Person)
    (hf : get_parent persons proband.pid "father" = some f)
    (hm : get_parent persons proband.pid "mother" = some m)
    (hfa : f.affected = some true) (hma : m.affected = some true)
    (hq0 : 0 ≤ prm.carrier_freq) (hq1 : prm.carrier_freq ≤ 1)
    (hp0 : 0 ≤ prm.penetrance) (hp1 : prm.penetrance ≤ 1) :
    prob_proband_AR persons proband prm = 1 / 4 * prm.penetrance :=
  AR_both_affected persons proband prm f m hf hm hfa hma hp0 hp1

def c3proband : Person :=
  { pid := "P0", name := "You", sex := "F", relation := "self",
    parents := [some "P1", some "P2"] }

def c3dad : Person :=
  { pid := "P1", name := "Dad", sex := "M", relation := "father", affected := some true }

def c3mom : Person :=
  { pid := "P2", name := "Mom", sex := "F", relation := "mother", affected := some true }

def c3fam : Store := [("P0", c3proband), ("P1", c3dad), ("P2", c3mom)]

def c3prm : InheritanceParams :=
  { pattern := "Autosomal Recessive (AR)", prevalence := 1 / 1000,
    carrier_freq := 2 / 100, penetrance := 8 / 10, de_novo_rate := 1 / 10000 }

/-- Witness for C3 at a concrete pedigree with both parents affected. -/
theorem spec_C3_AR_obligate_witness :
    prob_proband_AR c3fam c3proband c3prm = 1 / 4 * c3prm.penetrance :=
  spec_C3_AR_obligate c3fam c3proband c3prm c3dad c3mom (by decide) (by decide)
    (by decide) (by decide) (by norm_num [c3prm]) (by norm_num [c3prm])
    (by norm_num [c3prm]) (by norm_num [c3prm])

/-- C4: with an affected recorded sibling and neither recorded parent
Affected, both AR carrier probabilities are promoted to at least 2/3, so
the risk is at least `(2/3)² · 1/4 · penetrance`; the promotion is a
maximum, so a parent already promoted to 1.0 (affected) is never lowered
(both parents affected plus an affected sibling still yields
`1/4 · penetrance`). -/
theorem spec_C4_AR_promotion (persons : Store) (proband : Person) (prm : InheritanceParams)
    (hsib : anySibAffected persons = true)
    (hq0 : 0 ≤ prm.carrier_freq) (hq1 : prm.carrier_freq ≤ 1)
    (hp0 : 0 ≤ prm.penetrance) (hp1 : prm.penetrance ≤ 1) :
    (affectedTrue (get_parent persons proband.pid "father") = false →
     affectedTrue (get_parent persons proband.pid "mother") = false →
     2 / 3 * (2 / 3) * (1 / 4) * prm.penetrance ≤ prob_proband_AR persons proband prm) ∧
    (∀ f m, get_parent persons proband.pid "father" = some f → f.affected = some true →
      get_parent persons proband.pid "mother" = some m → m.affected = some true →
      prob_proband_AR persons proband prm = 1 / 4 * prm.penetrance) := by
  constructor
  · intro _ _
    rw [AR_eq, hsib]
    set a := parentCarrierAR (affectedTrue (get_parent persons proband.pid "father")) true
      prm.carrier_freq with ha
    set b := parentCarrierAR (affectedTrue (get_parent persons proband.pid "mother")) true
      prm.carrier_freq with hb
    have ha0 : 0 ≤ a := parentCarrierAR_nonneg hq0 _ _
    have hb0 : 0 ≤ b := parentCarrierAR_nonneg hq0 _ _
    have ha1 : a ≤ 1 := parentCarrierAR_le_one hq1 _ _
    have hb1 : b ≤ 1 := parentCarrierAR_le_one hq1 _ _
    have ha23 : 2 / 3 ≤ a := parentCarrierAR_sib_ge _ _
    have hb23 : 2 / 3 ≤ b := parentCarrierAR_sib_ge _ _
    have hbase0 : 0 ≤ a * b * (1 / 4) * prm.penetrance := by positivity
    have hbase1 : a * b * (1 / 4) * prm.penetrance ≤ 1 := by
      nlinarith [mul_le_one₀ (mul_le_one₀ ha1 hb0 hb1) hp0 hp1,
        mul_nonneg (mul_nonneg ha0 hb0) hp0]
    rw [clamp01_eq_self hbase0 hbase1]
    nlinarith [mul_le_mul_of_nonneg_right (mul_le_mul ha23 hb23 (by norm_num) ha0) hp0]
  · intro f m hf hfa hm hma
    exact AR_both_affected persons proband prm f m hf hm hfa hma hp0 hp1

def c4proband : Person :=
  { pid := "P0", name := "You", sex := "F", relation := "self" }

def c4sib : Person :=
  { pid := "P1", name := "Sib", sex := "M", relation := "sibling", affected := some true }

def c4fam : Store := [("P0", c4proband), ("P1", c4sib)]

def c4prm : InheritanceParams :=
  { pattern := "Autosomal Recessive (AR)", prevalence := 1 / 1000,
    carrier_freq := 2 / 100, penetrance := 8 / 10, de_novo_rate := 1 / 10000 }

/-- Witness for C4: an affected sibling and no recorded parents. -/
theorem spec_C4_AR_promotion_witness :
    (affectedTrue (get_parent c4fam c4proband.pid "father") = false →
     affectedTrue (get_parent c4fam c4proband.pid "mother") = false →
     2 / 3 * (2 / 3) * (1 / 4) * c4prm.penetrance ≤ prob_proband_AR c4fam c4proband c4prm) ∧
    (∀ f m, get_parent c4fam c4proband.pid "father" = some f → f.affected = some true →
      get_parent c4fam c4proband.pid "mother" = some m → m.affected = some true →
      prob_proband_AR c4fam c4proband c4prm = 1 / 4 * c4prm.penetrance) :=
  spec_C4_AR_promotion c4fam c4proband c4prm (by decide) (by norm_num [c4prm])
    (by norm_num [c4prm]) (by norm_num [c4prm]) (by norm_num [c4prm])

/-- C5: for the AD engine, when neither recorded parent is Affected
(missing, Unaffected or Unknown) the risk is exactly
`de_novo_rate · penetrance`; when at least one parent is Affected it is
`1/2 · penetrance`, with no double-counting when both are. -/
theorem spec_C5_AD_fallback (persons : Store) (proband : Person) (prm : InheritanceParams)
    (hp0 : 0 ≤ prm.penetrance) (hp1 : prm.penetrance ≤ 1)
    (hd0 : 0 ≤ prm.de_novo_rate) (hd1 : prm.de_novo_rate ≤ 1) :
    (affectedTrue (get_parent persons proband.pid "father") = false →
     affectedTrue (get_parent persons proband.pid "mother") = false →
     prob_proband_AD persons proband prm = prm.de_novo_rate * prm.penetrance) ∧
    (affectedTrue (get_parent persons proband.pid "father") = true ∨
     affectedTrue (get_parent persons proband.pid "mother") = true →
     prob_proband_AD persons proband prm = 1 / 2 * prm.penetrance) := by
  constructor
  · intro hfn hmn
    rw [AD_eq, hfn, hmn]
    have hb : adBase false false prm.penetrance prm.de_novo_rate =
        prm.de_novo_rate * prm.penetrance := by
      simp [adBase]
    rw [hb, clamp01_eq_self (mul_nonneg hd0 hp0) (mul_le_one₀ hd1 hp0 hp1)]
  · intro h
    rcases eq_or_lt_of_le hp0 with hz | hpos
    · have hz' : prm.penetrance = 0 := hz.symm
      have hb : ∀ fa ma : Bool, adBase fa ma 0 prm.de_novo_rate = 0 := by
        intro fa ma
        cases fa <;> cases ma <;> simp [adBase]
      rw [AD_eq, hz', hb]
      norm_num
    · have hmx : max (0 : ℚ) (1 / 2 * prm.penetrance) = 1 / 2 * prm.penetrance :=
        max_eq_right (by positivity)
      have hne : ¬ (1 / 2 * prm.penetrance = 0) := by positivity
      have hb : ∀ fa ma : Bool, (fa = true ∨ ma = true) →
          adBase fa ma prm.penetrance prm.de_novo_rate = 1 / 2 * prm.penetrance := by
        intro fa ma hfm
        cases fa <;> cases ma <;>
          simp_all [adBase, hmx, hne, max_self]
      rw [AD_eq, hb _ _ h,
        clamp01_eq_self (by positivity) (by nlinarith)]

def c5proband : Person :=
  { pid := "P0", name := "You", sex := "F", relation := "self" }

def c5fam : Store := [("P0", c5proband)]

def c5prm : InheritanceParams :=
  { pattern := "Autosomal Dominant (AD)", prevalence := 1 / 1000,
    carrier_freq := 2 / 100, penetrance := 1, de_novo_rate := 1 / 10000 }

/-- Witness for C5: no recorded parents at all. -/
theorem spec_C5_AD_fallback_witness :
    (affectedTrue (get_parent c5fam c5proband.pid "father") = false →
     affectedTrue (get_parent c5fam c5proband.pid "mother") = false →
     prob_proband_AD c5fam c5proband c5prm = c5prm.de_novo_rate * c5prm.penetrance) ∧
    (affectedTrue (get_parent c5fam c5proband.pid "father") = true ∨
     affectedTrue (get_parent c5fam c5proband.pid "mother") = true →
     prob_proband_AD c5fam c5proband c5prm = 1 / 2 * c5prm.penetrance) :=
  spec_C5_AD_fallback c5fam c5proband c5prm (by norm_num [c5prm]) (by norm_num [c5prm])
    (by norm_num [c5prm]) (by norm_num [c5prm])

/-- C6: for the XLD engine with an Affected recorded father and a
recorded non-Affected mother, a female proband's risk is
`1 · penetrance` while a male proband's risk is
`de_novo_rate · penetrance` (the father's status has no effect on a male
proband). -/
theorem spec_C6_XLD_sex (persons : Store) (proband : Person) (prm : InheritanceParams)
    (f m : Person)
    (hf : get_parent persons proband.pid "father" = some f) (hfa : f.affected = some true)
    (hm : get_parent persons proband.pid "mother" = some m) (hma : m.affected ≠ some true)
    (hp0 : 0 ≤ prm.penetrance) (hp1 : prm.penetrance ≤ 1)
    (hd0 : 0 ≤ prm.de_novo_rate) (hd1 : prm.de_novo_rate ≤ 1) :
    (proband.sex = "F" → prob_proband_XLD persons proband prm = 1 * prm.penetrance) ∧
    (proband.sex = "M" → prob_proband_XLD persons proband prm =
      prm.de_novo_rate * prm.penetrance) := by
  have haf : affectedTrue (get_parent persons proband.pid "father") = true := by
    rw [hf]; simp [affectedTrue, hfa]
  have ham : affectedTrue (get_parent persons proband.pid "mother") = false := by
    rw [hm]; simp [affectedTrue]; exact hma
  constructor
  · intro hsex
    rw [XLD_eq, if_pos hsex, ham, haf]
    rcases eq_or_lt_of_le hp0 with hz | hpos
    · have hz' : prm.penetrance = 0 := hz.symm
      rw [hz']
      simp [xldFemaleBase]
    · have hmx : max (0 : ℚ) (1 * prm.penetrance) = 1 * prm.penetrance :=
        max_eq_right (by positivity)
      have hne : ¬ (1 * prm.penetrance = 0) := by positivity
      have hstep : xldFemaleBase false true prm.penetrance prm.de_novo_rate =
          if max 0 (1 * prm.penetrance) = 0 then prm.de_novo_rate * prm.penetrance
          else max 0 (1 * prm.penetrance) := rfl
      rw [hstep, hmx, if_neg hne, clamp01_eq_self (by positivity) (by nlinarith)]
  · intro hsex
    have hsexne : ¬ (proband.sex = "F") := by
      rw [hsex]; decide
    rw [XLD_eq, if_neg hsexne, ham]
    simp

def c6probandF : Person :=
  { pid := "P0", name := "You", sex := "F", relation := "self",
    parents := [some "P1", some "P2"] }

def c6probandM : Person :=
  { pid := "P0", name := "You", sex := "M", relation := "self",
    parents := [some "P1", some "P2"] }

def c6dad : Person :=
  { pid := "P1", name := "Dad", sex := "M", relation := "father", affected := some true }

def c6mom : Person :=
  { pid := "P2", name := "Mom", sex := "F", relation := "mother", affected := some false }

def c6fam : Store := [("P0", c6probandF), ("P1", c6dad), ("P2", c6mom)]

def c6prm : InheritanceParams :=
  { pattern := "X-linked Dominant (XLD)", prevalence := 1 / 1000,
    carrier_freq := 2 / 100, penetrance := 8 / 10, de_novo_rate := 1 / 10000 }

/-- The AD accumulator collapses to a single coefficient times the
penetrance: `1/2` when some parent is affected, else the de-novo rate. -/
lemma adBase_eq (fa ma : Bool) (p dn : ℚ) (hp : 0 ≤ p) :
    adBase fa ma p dn = (if fa || ma then 1 / 2 else dn) * p := by
  have hmx : max (0 : ℚ) (1 / 2 * p) = 1 / 2 * p := max_eq_right (by nlinarith)
  have hif : (if (1 / 2 * p : ℚ) = 0 then dn * p else 1 / 2 * p) = 1 / 2 * p := by
    rcases hp.eq_or_lt with hz | hpos
    · rw [← hz]; norm_num
    · rw [if_neg (by positivity)]
  cases fa <;> cases ma
  · show (if (0 : ℚ) = 0 then dn * p else 0) = dn * p
    rw [if_pos rfl]
  · show (if max 0 (1 / 2 * p) = 0 then dn * p else max 0 (1 / 2 * p)) = 1 / 2 * p
    rw [hmx, hif]
  · show (if max 0 (1 / 2 * p) = 0 then dn * p else max 0 (1 / 2 * p)) = 1 / 2 * p
    rw [hmx, hif]
  · show (if max (max 0 (1 / 2 * p)) (1 / 2 * p) = 0 then dn * p
        else max (max 0 (1 / 2 * p)) (1 / 2 * p)) = 1 / 2 * p
    rw [hmx, max_self, hif]

/-- The XLD female accumulator collapses to a single coefficient times
the penetrance: 1 for an affected father, else `1/2` for an affected
mother, else the de-novo rate. -/
lemma xldFemaleBase_eq (mAff fAff : Bool) (p dn : ℚ) (hp : 0 ≤ p) :
    xldFemaleBase mAff fAff p dn =
      (if fAff then 1 else if mAff then 1 / 2 else dn) * p := by
  have hmx2 : max (0 : ℚ) (1 / 2 * p) = 1 / 2 * p := max_eq_right (by nlinarith)
  have hmx1 : max (0 : ℚ) (1 * p) = 1 * p := max_eq_right (by nlinarith)
  have hmx12 : max (1 / 2 * p) (1 * p) = 1 * p := max_eq_right (by nlinarith)
  have hif2 : (if (1 / 2 * p : ℚ) = 0 then dn * p else 1 / 2 * p) = 1 / 2 * p := by
    rcases hp.eq_or_lt with hz | hpos
    · rw [← hz]; norm_num
    · rw [if_neg (by positivity)]
  have hif1 : (if (1 * p : ℚ) = 0 then dn * p else 1 * p) = 1 * p := by
    rcases hp.eq_or_lt with hz | hpos
    · rw [← hz]; norm_num
    · rw [if_neg (by positivity)]
  cases mAff <;> cases fAff
  · show (if (0 : ℚ) = 0 then dn * p else 0) = dn * p
    rw [if_pos rfl]
  · show (if max 0 (1 * p) = 0 then dn * p else max 0 (1 * p)) = 1 * p
    rw [hmx1, hif1]
  · show (if max 0 (1 / 2 * p) = 0 then dn * p else max 0 (1 / 2 * p)) = 1 / 2 * p
    rw [hmx2, hif2]
  · show (if max (max 0 (1 / 2 * p)) (1 * p) = 0 then dn * p
        else max (max 0 (1 / 2 * p)) (1 * p)) = 1 * p
    rw [hmx2, hmx12, hif1]

/-- Witness for C6: the same affected father and unaffected mother, one
female and one male proband record with the same parent links. -/
theorem spec_C6_XLD_sex_witness :
    prob_proband_XLD c6fam c6probandF c6prm = 1 * c6prm.penetrance ∧
    prob_proband_XLD c6fam c6probandM c6prm = c6prm.de_novo_rate * c6prm.penetrance :=
  ⟨(spec_C6_XLD_sex c6fam c6probandF c6prm c6dad c6mom (by decide) (by decide) (by decide)
      (by decide) (by norm_num [c6prm]) (by norm_num [c6prm]) (by norm_num [c6prm])
      (by norm_num [c6prm])).1 rfl,
   (spec_C6_XLD_sex c6fam c6probandM c6prm c6dad c6mom (by decide) (by decide) (by decide)
      (by decide) (by norm_num [c6prm]) (by norm_num [c6prm]) (by norm_num [c6prm])
      (by norm_num [c6prm])).2 rfl⟩

/-- C1: for every store, proband and parameter bundle with all four
numeric parameters in [0,1], each of the five engines returns a value in
[0,1]; and when no engine matches the selected pattern, `compute_risk`
returns `None`. -/
theorem spec_C1_range (persons : Store) (proband : Person) (prm : InheritanceParams)
    (hv : validParams prm) :
    (0 ≤ prob_proband_AR persons proband prm ∧ prob_proband_AR persons proband prm ≤ 1) ∧
    (0 ≤ prob_proband_AD persons proband prm ∧ prob_proband_AD persons proband prm ≤ 1) ∧
    (0 ≤ prob_proband_XLR persons proband prm ∧ prob_proband_XLR persons proband prm ≤ 1) ∧
    (0 ≤ prob_proband_XLD persons proband prm ∧ prob_proband_XLD persons proband prm ≤ 1) ∧
    (0 ≤ prob_proband_MITO persons proband prm ∧ prob_proband_MITO persons proband prm ≤ 1) ∧
    ((findEngine prm.pattern).isSome = false → compute_risk persons proband prm = none) := by
  obtain ⟨hv0, hv1, hq0, hq1, hp0, hp1, hd0, hd1⟩ := hv
  refine ⟨?_, ?_, ?_, ?_, ?_, ?_⟩
  · rw [AR_eq]
    exact ⟨clamp01_nonneg _, clamp01_le_one _⟩
  · rw [AD_eq]
    exact ⟨clamp01_nonneg _, clamp01_le_one _⟩
  · rw [XLR_eq]
    split_ifs <;> constructor <;>
      nlinarith [mul_nonneg hq0 hp0, mul_le_one₀ hq1 hp0 hp1]
  · rw [XLD_eq]
    split_ifs with hsex hmo
    · exact ⟨clamp01_nonneg _, clamp01_le_one _⟩
    · constructor <;> nlinarith [mul_nonneg hd0 hp0, mul_le_one₀ hd1 hp0 hp1]
    · constructor <;> nlinarith [mul_nonneg hd0 hp0, mul_le_one₀ hd1 hp0 hp1]
  · rw [MITO_eq]
    split_ifs <;> constructor <;>
      nlinarith [mul_nonneg hv0 hp0, mul_le_one₀ hv1 hp0 hp1]
  · intro h
    unfold compute_risk
    cases hfe : findEngine prm.pattern with
    | none => rfl
    | some e => rw [hfe] at h; simp at h

def c1proband : Person :=
  { pid := "P0", name := "You", sex := "M", relation := "self",
    parents := [some "P1", some "P2"] }

def c1mom : Person :=
  { pid := "P2", name := "Mom", sex := "F", relation := "mother",
    affected := some true, carrier := some true }

def c1fam : Store := [("P0", c1proband), ("P2", c1mom)]

def c1prm : InheritanceParams :=
  { pattern := "X-linked Recessive (XLR)", prevalence := 1 / 1000,
    carrier_freq := 2 / 100, penetrance := 1, de_novo_rate := 1 / 10000 }

/-- Witness for C1: a male proband with an affected carrier mother and a
dangling father link. -/
theorem spec_C1_range_witness :
    (0 ≤ prob_proband_AR c1fam c1proband c1prm ∧ prob_proband_AR c1fam c1proband c1prm ≤ 1) ∧
    (0 ≤ prob_proband_AD c1fam c1proband c1prm ∧ prob_proband_AD c1fam c1proband c1prm ≤ 1) ∧
    (0 ≤ prob_proband_XLR c1fam c1proband c1prm ∧ prob_proband_XLR c1fam c1proband c1prm ≤ 1) ∧
    (0 ≤ prob_proband_XLD c1fam c1proband c1prm ∧ prob_proband_XLD c1fam c1proband c1prm ≤ 1) ∧
    (0 ≤ prob_proband_MITO c1fam c1proband c1prm ∧
      prob_proband_MITO c1fam c1proband c1prm ≤ 1) ∧
    ((findEngine c1prm.pattern).isSome = false →
      compute_risk c1fam c1proband c1prm = none) :=
  spec_C1_range c1fam c1proband c1prm (by norm_num [validParams, c1prm])

/-- C7: for a fixed pedigree, proband and fixed `prevalence`,
`carrier_freq`, `de_novo_rate` in [0,1], every engine's risk is
non-decreasing in `penetrance` on [0,1] (including across the de-novo
branch switch of AD and XLD). -/
theorem spec_C7_penetrance_mono (persons : Store) (proband : Person)
    (pat : String) (prev q dn p1 p2 : ℚ)
    (hprev0 : 0 ≤ prev) (hprev1 : prev ≤ 1)
    (hq0 : 0 ≤ q) (hq1 : q ≤ 1)
    (hd0 : 0 ≤ dn) (hd1 : dn ≤ 1)
    (hp10 : 0 ≤ p1) (hp12 : p1 ≤ p2) (hp21 : p2 ≤ 1) :
    prob_proband_AR persons proband ⟨pat, prev, q, p1, dn⟩ ≤
      prob_proband_AR persons proband ⟨pat, prev, q, p2, dn⟩ ∧
    prob_proband_AD persons proband ⟨pat, prev, q, p1, dn⟩ ≤
      prob_proband_AD persons proband ⟨pat, prev, q, p2, dn⟩ ∧
    prob_proband_XLR persons proband ⟨pat, prev, q, p1, dn⟩ ≤
      prob_proband_XLR persons proband ⟨pat, prev, q, p2, dn⟩ ∧
    prob_proband_XLD persons proband ⟨pat, prev, q, p1, dn⟩ ≤
      prob_proband_XLD persons proband ⟨pat, prev, q, p2, dn⟩ ∧
    prob_proband_MITO persons proband ⟨pat, prev, q, p1, dn⟩ ≤
      prob_proband_MITO persons proband ⟨pat, prev, q, p2, dn⟩ := by
  have hp20 : 0 ≤ p2 := hp10.trans hp12
  have hdiff : 0 ≤ p2 - p1 := sub_nonneg.mpr hp12
  refine ⟨?_, ?_, ?_, ?_, ?_⟩
  · simp only [AR_eq]
    apply clamp01_mono
    have ha0 : 0 ≤ parentCarrierAR
        (affectedTrue (get_parent persons proband.pid "father")) (anySibAffected persons) q :=
      parentCarrierAR_nonneg hq0 _ _
    have hb0 : 0 ≤ parentCarrierAR
        (affectedTrue (get_parent persons proband.pid "mother")) (anySibAffected persons) q :=
      parentCarrierAR_nonneg hq0 _ _
    nlinarith [mul_nonneg (mul_nonneg ha0 hb0) hdiff]
  · simp only [AD_eq]
    apply clamp01_mono
    rw [adBase_eq _ _ _ _ hp10, adBase_eq _ _ _ _ hp20]
    have hc0 : (0 : ℚ) ≤
        if affectedTrue (get_parent persons proband.pid "father") ||
           affectedTrue (get_parent persons proband.pid "mother") then 1 / 2 else dn := by
      split_ifs
      · norm_num
      · exact hd0
    exact mul_le_mul_of_nonneg_left hp12 hc0
  · simp only [XLR_eq]
    split_ifs <;> nlinarith [mul_nonneg hq0 hdiff]
  · simp only [XLD_eq]
    split_ifs with hsex hmo
    · apply clamp01_mono
      rw [xldFemaleBase_eq _ _ _ _ hp10, xldFemaleBase_eq _ _ _ _ hp20]
      have hc0 : (0 : ℚ) ≤
          if affectedTrue (get_parent persons proband.pid "father") then 1
          else if affectedTrue (get_parent persons proband.pid "mother") then 1 / 2
          else dn := by
        split_ifs
        · norm_num
        · norm_num
        · exact hd0
      exact mul_le_mul_of_nonneg_left hp12 hc0
    · linarith
    · nlinarith [mul_nonneg hd0 hdiff]
  · simp only [MITO_eq]
    split_ifs <;> nlinarith [mul_nonneg hprev0 hdiff]

/-- Witness for C7 on the C6 pedigree, raising penetrance from 1/2 to 1. -/
theorem spec_C7_penetrance_mono_witness :
    prob_proband_AR c6fam c6probandF ⟨"x", 1 / 1000, 2 / 100, 1 / 2, 1 / 10000⟩ ≤
      prob_proband_AR c6fam c6probandF ⟨"x", 1 / 1000, 2 / 100, 1, 1 / 10000⟩ ∧
    prob_proband_AD c6fam c6probandF ⟨"x", 1 / 1000, 2 / 100, 1 / 2, 1 / 10000⟩ ≤
      prob_proband_AD c6fam c6probandF ⟨"x", 1 / 1000, 2 / 100, 1, 1 / 10000⟩ ∧
    prob_proband_XLR c6fam c6probandF ⟨"x", 1 / 1000, 2 / 100, 1 / 2, 1 / 10000⟩ ≤
      prob_proband_XLR c6fam c6probandF ⟨"x", 1 / 1000, 2 / 100, 1, 1 / 10000⟩ ∧
    prob_proband_XLD c6fam c6probandF ⟨"x", 1 / 1000, 2 / 100, 1 / 2, 1 / 10000⟩ ≤
      prob_proband_XLD c6fam c6probandF ⟨"x", 1 / 1000, 2 / 100, 1, 1 / 10000⟩ ∧
    prob_proband_MITO c6fam c6probandF ⟨"x", 1 / 1000, 2 / 100, 1 / 2, 1 / 10000⟩ ≤
      prob_proband_MITO c6fam c6probandF ⟨"x", 1 / 1000, 2 / 100, 1, 1 / 10000⟩ :=
  spec_C7_penetrance_mono c6fam c6probandF "x" (1 / 1000) (2 / 100) (1 / 10000)
    (1 / 2) 1 (by norm_num) (by norm_num) (by norm_num) (by norm_num) (by norm_num)
    (by norm_num) (by norm_num) (by norm_num) (by norm_num)

/-- C9: when the selected pattern string matches no engine key (its
prefix test fails for all five), the risk computation returns `None`
rather than a number, and bucketing that result yields "Unknown". -/
theorem spec_C9_unknown_pattern (persons : Store) (proband : Person) (prm : InheritanceParams)
    (h : ∀ kf ∈ PATTERN_ENGINES, strStartsWith prm.pattern (engineKeyRoot kf.1) = false) :
    compute_risk persons proband prm = none ∧
    risk_bucket (compute_risk persons proband prm) = "Unknown" := by
  have hfind : PATTERN_ENGINES.find?
      (fun kf => strStartsWith prm.pattern (engineKeyRoot kf.1)) = none := by
    rw [List.find?_eq_none]
    intro x hx
    rw [h x hx]
    simp
  have hnone : compute_risk persons proband prm = none := by
    unfold compute_risk findEngine
    rw [hfind]
    rfl
  exact ⟨hnone, by rw [hnone]; rfl⟩

/-- Witness for C9 at the "Custom (manual override)" pattern choice. -/
theorem spec_C9_unknown_pattern_witness :
    compute_risk c5fam c5proband
      { pattern := "Custom (manual override)", prevalence := 1 / 1000,
        carrier_freq := 2 / 100, penetrance := 1, de_novo_rate := 1 / 10000 } = none ∧
    risk_bucket (compute_risk c5fam c5proband
      { pattern := "Custom (manual override)", prevalence := 1 / 1000,
        carrier_freq := 2 / 100, penetrance := 1, de_novo_rate := 1 / 10000 }) = "Unknown" :=
  spec_C9_unknown_pattern c5fam c5proband _ (by decide)

/-! ### The add-relative handler -/

/-- Effect of an add with relation "mother": the new person is stored
under the fresh id, the proband's father slot is preserved and the
mother slot now points at the fresh id, so `get_parent` returns the new
person. -/
lemma add_mother_spec (fam : Store) (pr_id : String) (pr : Person)
    (hpr : storeGet fam pr_id = some pr)
    (hfresh : storeGet fam (newPid fam) = none)
    (nm sx : String) (hnm : nm ≠ "") (aff car : Option Bool)
    (age : Option Nat) (nts : String) :
    ∃ fam', add_relative fam pr_id nm "mother" sx aff car age nts = some fam' ∧
      storeGet fam' pr_id = some { pr with parents :=
        [(if pr.parents.isEmpty then none else pr.parents.getD 0 none),
         some (newPid fam)] } ∧
      get_parent fam' pr_id "mother" = some
        { pid := newPid fam, name := nm, sex := sx, relation := "mother",
          affected := aff, carrier := car, age := age, notes := nts } := by
  have hne : pr_id ≠ newPid fam := by
    intro h
    rw [h, hfresh] at hpr
    cases hpr
  have hadd : add_relative fam pr_id nm "mother" sx aff car age nts =
      some (storeSet
        (storeSet fam pr_id { pr with parents :=
          [(if pr.parents.isEmpty then none else pr.parents.getD 0 none),
           some (newPid fam)] })
        (newPid fam)
        { pid := newPid fam, name := nm, sex := sx, relation := "mother",
          affected := aff, carrier := car, age := age, notes := nts }) := by
    unfold add_relative
    rw [if_neg hnm, if_pos rfl, hpr]
  refine ⟨_, hadd, ?_, ?_⟩
  · rw [storeGet_storeSet, if_neg hne, storeGet_storeSet, if_pos rfl]
  · have hget_pr : storeGet
        (storeSet
          (storeSet fam pr_id { pr with parents :=
            [(if pr.parents.isEmpty then none else pr.parents.getD 0 none),
             some (newPid fam)] })
          (newPid fam)
          { pid := newPid fam, name := nm, sex := sx, relation := "mother",
            affected := aff, carrier := car, age := age, notes := nts }) pr_id =
        some { pr with parents :=
          [(if pr.parents.isEmpty then none else pr.parents.getD 0 none),
           some (newPid fam)] } := by
      rw [storeGet_storeSet, if_neg hne, storeGet_storeSet, if_pos rfl]
    have hget_np : storeGet
        (storeSet
          (storeSet fam pr_id { pr with parents :=
            [(if pr.parents.isEmpty then none else pr.parents.getD 0 none),
             some (newPid fam)] })
          (newPid fam)
          { pid := newPid fam, name := nm, sex := sx, relation := "mother",
            affected := aff, carrier := car, age := age, notes := nts }) (newPid fam) =
        some { pid := newPid fam, name := nm, sex := sx, relation := "mother",
               affected := aff, carrier := car, age := age, notes := nts } := by
      rw [storeGet_storeSet, if_pos rfl]
    rw [get_parent_mother_slot _ _ _ _ (newPid fam) hget_pr rfl (newPid_ne_empty fam)]
    exact hget_np

/-- Effect of an add with relation "father", symmetric to the mother
case; the proband's parent list must be empty or of length ≥ 2 (the
handler indexes `parents[1]` when it is non-empty). -/
lemma add_father_spec (fam : Store) (pr_id : String) (pr : Person)
    (hpr : storeGet fam pr_id = some pr)
    (hfresh : storeGet fam (newPid fam) = none)
    (hwf : pr.parents = [] ∨ 2 ≤ pr.parents.length)
    (nm sx : String) (hnm : nm ≠ "") (aff car : Option Bool)
    (age : Option Nat) (nts : String) :
    ∃ fam', add_relative fam pr_id nm "father" sx aff car age nts = some fam' ∧
      storeGet fam' pr_id = some { pr with parents :=
        [some (newPid fam),
         (if pr.parents.isEmpty then none else pr.parents.getD 1 none)] } ∧
      get_parent fam' pr_id "father" = some
        { pid := newPid fam, name := nm, sex := sx, relation := "father",
          affected := aff, carrier := car, age := age, notes := nts } := by
  have hne : pr_id ≠ newPid fam := by
    intro h
    rw [h, hfresh] at hpr
    cases hpr
  obtain ⟨ppid, pname, psex, prel, paff, pcar, page, pnots, pparents⟩ := pr
  rcases hwf with hempty | hlen
  · change pparents = [] at hempty
    subst hempty
    have hadd : add_relative fam pr_id nm "father" sx aff car age nts =
        some (storeSet
          (storeSet fam pr_id
            ⟨ppid, pname, psex, prel, paff, pcar, page, pnots,
             [some (newPid fam), none]⟩)
          (newPid fam) ⟨newPid fam, nm, sx, "father", aff, car, age, nts, []⟩) := by
      unfold add_relative
      rw [if_neg hnm, if_neg (by decide), if_pos rfl, hpr]
      rfl
    refine ⟨_, hadd, ?_, ?_⟩
    · rw [storeGet_storeSet, if_neg hne, storeGet_storeSet, if_pos rfl]
      rfl
    · have h1 : storeGet (storeSet
          (storeSet fam pr_id
            ⟨ppid, pname, psex, prel, paff, pcar, page, pnots,
             [some (newPid fam), none]⟩)
          (newPid fam) ⟨newPid fam, nm, sx, "father", aff, car, age, nts, []⟩) pr_id =
          some ⟨ppid, pname, psex, prel, paff, pcar, page, pnots,
            [some (newPid fam), none]⟩ := by
        rw [storeGet_storeSet, if_neg hne, storeGet_storeSet, if_pos rfl]
      rw [get_parent_father_slot _ _ _ none (newPid fam) h1 rfl (newPid_ne_empty fam)]
      rw [storeGet_storeSet, if_pos rfl]
  · change 2 ≤ pparents.length at hlen
    cases pparents with
    | nil => simp at hlen
    | cons a t =>
      cases t with
      | nil => simp at hlen
      | cons b t2 =>
        have hadd : add_relative fam pr_id nm "father" sx aff car age nts =
            some (storeSet
              (storeSet fam pr_id
                ⟨ppid, pname, psex, prel, paff, pcar, page, pnots,
                 [some (newPid fam), b]⟩)
              (newPid fam) ⟨newPid fam, nm, sx, "father", aff, car, age, nts, []⟩) := by
          unfold add_relative
          rw [if_neg hnm, if_neg (by decide), if_pos rfl, hpr]
          rfl
        refine ⟨_, hadd, ?_, ?_⟩
        · rw [storeGet_storeSet, if_neg hne, storeGet_storeSet, if_pos rfl]
          rfl
        · have h1 : storeGet (storeSet
              (storeSet fam pr_id
                ⟨ppid, pname, psex, prel, paff, pcar, page, pnots,
                 [some (newPid fam), b]⟩)
              (newPid fam) ⟨newPid fam, nm, sx, "father", aff, car, age, nts, []⟩) pr_id =
              some ⟨ppid, pname, psex, prel, paff, pcar, page, pnots,
                [some (newPid fam), b]⟩ := by
            rw [storeGet_storeSet, if_neg hne, storeGet_storeSet, if_pos rfl]
          rw [get_parent_father_slot _ _ _ b (newPid fam) h1 rfl (newPid_ne_empty fam)]
          rw [storeGet_storeSet, if_pos rfl]

/-- C8: adding a relative with relation "mother" makes
`get_parent(proband, "mother")` return that new person while preserving
the father slot; symmetrically for "father"; and a second "mother" add
silently replaces the proband's mother link with the newer relative. -/
theorem spec_C8_roundtrip (fam : Store) (pr_id : String) (pr : Person)
    (hpr : storeGet fam pr_id = some pr)
    (hfresh : storeGet fam (newPid fam) = none)
    (nm sx : String) (hnm : nm ≠ "") (aff car : Option Bool)
    (age : Option Nat) (nts : String) :
    (∃ fam', add_relative fam pr_id nm "mother" sx aff car age nts = some fam' ∧
      storeGet fam' pr_id = some { pr with parents :=
        [(if pr.parents.isEmpty then none else pr.parents.getD 0 none),
         some (newPid fam)] } ∧
      get_parent fam' pr_id "mother" = some
        { pid := newPid fam, name := nm, sex := sx, relation := "mother",
          affected := aff, carrier := car, age := age, notes := nts }) ∧
    (pr.parents = [] ∨ 2 ≤ pr.parents.length →
      ∃ fam', add_relative fam pr_id nm "father" sx aff car age nts = some fam' ∧
        storeGet fam' pr_id = some { pr with parents :=
          [some (newPid fam),
           (if pr.parents.isEmpty then none else pr.parents.getD 1 none)] } ∧
        get_parent fam' pr_id "father" = some
          { pid := newPid fam, name := nm, sex := sx, relation := "father",
            affected := aff, carrier := car, age := age, notes := nts }) ∧
    (∀ fam' pr', add_relative fam pr_id nm "mother" sx aff car age nts = some fam' →
      storeGet fam' pr_id = some pr' →
      storeGet fam' (newPid fam') = none →
      ∀ nm2 sx2 : String, ∀ aff2 car2 : Option Bool, ∀ age2 : Option Nat, ∀ nts2 : String,
        nm2 ≠ "" →
        ∃ fam'', add_relative fam' pr_id nm2 "mother" sx2 aff2 car2 age2 nts2 = some fam'' ∧
          storeGet fam'' pr_id = some { pr' with parents :=
            [(if pr'.parents.isEmpty then none else pr'.parents.getD 0 none),
             some (newPid fam')] } ∧
          get_parent fam'' pr_id "mother" = some
            { pid := newPid fam', name := nm2, sex := sx2, relation := "mother",
              affected := aff2, carrier := car2, age := age2, notes := nts2 }) := by
  refine ⟨?_, ?_, ?_⟩
  · exact add_mother_spec fam pr_id pr hpr hfresh nm sx hnm aff car age nts
  · intro hwf
    exact add_father_spec fam pr_id pr hpr hfresh hwf nm sx hnm aff car age nts
  · intro fam' pr' _ hpr' hfresh' nm2 sx2 aff2 car2 age2 nts2 hnm2
    exact add_mother_spec fam' pr_id pr' hpr' hfresh' nm2 sx2 hnm2 aff2 car2 age2 nts2

def c8pr : Person :=
  { pid := "P0", name := "You", sex := "F", relation := "self",
    parents := [some "P9", none] }

def c8fam : Store := [("P0", c8pr)]

/-- Witness for C8 on a one-person store whose proband has a recorded
father link "P9" and no mother. -/
theorem spec_C8_roundtrip_witness :
    (∃ fam', add_relative c8fam "P0" "Mom" "mother" "F" (some false) none none "" =
        some fam' ∧
      storeGet fam' "P0" = some { c8pr with parents :=
        [(if c8pr.parents.isEmpty then none else c8pr.parents.getD 0 none),
         some (newPid c8fam)] } ∧
      get_parent fam' "P0" "mother" = some
        { pid := newPid c8fam, name := "Mom", sex := "F", relation := "mother",
          affected := some false, carrier := none, age := none, notes := "" }) ∧
    (c8pr.parents = [] ∨ 2 ≤ c8pr.parents.length →
      ∃ fam', add_relative c8fam "P0" "Mom" "father" "F" (some false) none none "" =
          some fam' ∧
        storeGet fam' "P0" = some { c8pr with parents :=
          [some (newPid c8fam),
           (if c8pr.parents.isEmpty then none else c8pr.parents.getD 1 none)] } ∧
        get_parent fam' "P0" "father" = some
          { pid := newPid c8fam, name := "Mom", sex := "F", relation := "father",
            affected := some false, carrier := none, age := none, notes := "" }) ∧
    (∀ fam' pr', add_relative c8fam "P0" "Mom" "mother" "F" (some false) none none "" =
        some fam' →
      storeGet fam' "P0" = some pr' →
      storeGet fam' (newPid fam') = none →
      ∀ nm2 sx2 : String, ∀ aff2 car2 : Option Bool, ∀ age2 : Option Nat, ∀ nts2 : String,
        nm2 ≠ "" →
        ∃ fam'', add_relative fam' "P0" nm2 "mother" sx2 aff2 car2 age2 nts2 =
            some fam'' ∧
          storeGet fam'' "P0" = some { pr' with parents :=
            [(if pr'.parents.isEmpty then none else pr'.parents.getD 0 none),
             some (newPid fam')] } ∧
          get_parent fam'' "P0" "mother" = some
            { pid := newPid fam', name := nm2, sex := sx2, relation := "mother",
              affected := aff2, carrier := car2, age := age2, notes := nts2 }) :=
  spec_C8_roundtrip c8fam "P0" c8pr (by decide) (by decide) "Mom" "F" (by decide)
    (some false) none none ""

/-! ### Carrier non-interference of the AR engine -/

lemma eraseCarrier_pid (p : Person) : (eraseCarrier p).pid = p.pid := rfl

lemma eraseCarrier_relation (p : Person) : (eraseCarrier p).relation = p.relation := rfl

lemma eraseCarrier_affected (p : Person) : (eraseCarrier p).affected = p.affected := rfl

lemma eraseCarrier_parents (p : Person) : (eraseCarrier p).parents = p.parents := rfl

lemma affectedTrue_map_erase (o : Option Person) :
    affectedTrue (o.map eraseCarrier) = affectedTrue o := by
  cases o <;> rfl

lemma storeGet_erase (fam : Store) (pid : String) :
    storeGet (eraseStoreCarrier fam) pid = (storeGet fam pid).map eraseCarrier := by
  induction fam with
  | nil => rfl
  | cons a rest ih =>
    unfold eraseStoreCarrier at ih ⊢
    rw [List.map_cons, storeGet_cons, storeGet_cons]
    by_cases h : (a.1 == pid) = true
    · rw [if_pos h, if_pos h]
      rfl
    · rw [if_neg h, if_neg h]
      exact ih

lemma get_parent_erase (fam : Store) (pid role : String) :
    get_parent (eraseStoreCarrier fam) pid role =
      (get_parent fam pid role).map eraseCarrier := by
  cases hpg : storeGet fam pid with
  | none =>
    unfold get_parent
    rw [storeGet_erase, hpg]
    rfl
  | some p =>
    unfold get_parent
    rw [storeGet_erase, hpg]
    dsimp only [Option.map]
    simp only [eraseCarrier_parents]
    by_cases hemp : p.parents.isEmpty = true
    · rw [if_pos hemp, if_pos hemp]
    · rw [if_neg hemp, if_neg hemp]
      by_cases h1 : (role = "father" ∧ truthyId (p.parents.getD 0 none) = true)
      · rw [if_pos h1, if_pos h1, storeGet_erase]
        rfl
      · rw [if_neg h1, if_neg h1]
        by_cases h2 : (role = "mother" ∧ truthyId (p.parents.getD 1 none) = true)
        · rw [if_pos h2, if_pos h2, storeGet_erase]
          rfl
        · rw [if_neg h2, if_neg h2]

lemma storeValues_erase (fam : Store) :
    storeValues (eraseStoreCarrier fam) = (storeValues fam).map eraseCarrier := by
  unfold storeValues eraseStoreCarrier
  rw [List.map_map, List.map_map]
  rfl

lemma anySibAffected_erase (fam : Store) :
    anySibAffected (eraseStoreCarrier fam) = anySibAffected fam := by
  unfold anySibAffected
  rw [storeValues_erase, List.filter_map, List.any_map]
  rfl

/-- The AR engine reads no `carrier` field: erasing every carrier value
leaves its result unchanged. -/
lemma prob_proband_AR_erase (fam : Store) (proband : Person) (prm : InheritanceParams) :
    prob_proband_AR (eraseStoreCarrier fam) (eraseCarrier proband) prm =
      prob_proband_AR fam proband prm := by
  rw [AR_eq, AR_eq]
  simp only [eraseCarrier_pid]
  rw [get_parent_erase fam proband.pid "father", get_parent_erase fam proband.pid "mother",
    affectedTrue_map_erase, affectedTrue_map_erase, anySibAffected_erase]

def x10proband : Person :=
  { pid := "P0", name := "You", sex := "M", relation := "self",
    parents := [none, some "P1"] }

def x10momC : Person :=
  { pid := "P1", name := "Mom", sex := "F", relation := "mother", carrier := some true }

def x10momN : Person :=
  { pid := "P1", name := "Mom", sex := "F", relation := "mother" }

def x10famC : Store := [("P0", x10proband), ("P1", x10momC)]

def x10famN : Store := [("P0", x10proband), ("P1", x10momN)]

def x10prm : InheritanceParams :=
  { pattern := "X-linked Recessive (XLR)", prevalence := 0, carrier_freq := 0,
    penetrance := 1, de_novo_rate := 0 }

/-- C10: the AR engine never reads any person's carrier field — two
stores (and probands) that agree after erasing every carrier value get
the same AR risk — while the XLR engine does read the mother's carrier
field: two stores differing only in the mother's carrier value give
different XLR risks. -/
theorem spec_C10_AR_ignores_carrier :
    (∀ (fam1 fam2 : Store) (pr1 pr2 : Person) (prm : InheritanceParams),
      eraseStoreCarrier fam1 = eraseStoreCarrier fam2 →
      eraseCarrier pr1 = eraseCarrier pr2 →
      prob_proband_AR fam1 pr1 prm = prob_proband_AR fam2 pr2 prm) ∧
    (eraseStoreCarrier x10famC = eraseStoreCarrier x10famN ∧
      prob_proband_XLR x10famC x10proband x10prm ≠
        prob_proband_XLR x10famN x10proband x10prm) := by
  constructor
  · intro fam1 fam2 pr1 pr2 prm hfam hpr
    calc prob_proband_AR fam1 pr1 prm
        = prob_proband_AR (eraseStoreCarrier fam1) (eraseCarrier pr1) prm :=
          (prob_proband_AR_erase fam1 pr1 prm).symm
      _ = prob_proband_AR (eraseStoreCarrier fam2) (eraseCarrier pr2) prm := by
          rw [hfam, hpr]
      _ = prob_proband_AR fam2 pr2 prm := prob_proband_AR_erase fam2 pr2 prm
  · constructor
    · decide
    · have hC : prob_proband_XLR x10famC x10proband x10prm = 1 / 2 * 1 * 1 := by
        rw [XLR_eq, if_pos (show x10proband.sex = "M" from rfl)]
        rw [show carrierOrAffected (get_parent x10famC x10proband.pid "mother") = true from
          by decide]
        rw [if_pos rfl]
        rfl
      have hN : prob_proband_XLR x10famN x10proband x10prm =
          1 / 2 * x10prm.carrier_freq * 1 := by
        rw [XLR_eq, if_pos (show x10proband.sex = "M" from rfl)]
        rw [show carrierOrAffected (get_parent x10famN x10proband.pid "mother") = false from
          by decide]
        rw [if_neg (by simp)]
        rfl
      rw [hC, hN]
      norm_num [x10prm]

/-- Witness for C10: a store whose mother is an explicit known carrier
versus the same store with carrier unknown — the AR result agrees. -/
theorem spec_C10_AR_ignores_carrier_witness :
    prob_proband_AR x10famC x10proband x10prm =
      prob_proband_AR x10famN x10proband x10prm :=
  (spec_C10_AR_ignores_carrier).1 x10famC x10famN x10proband x10proband x10prm
    (by decide) rfl

end Genovate
